import Mathlib

/-
  Verification development for the phishdetector repository.

  The embedding covers the two near-duplicate pipelines:
    * src/phishdetect.py        (class PhishingDetector)
    * src/phishdetect_fixed.py  (class URLFeatureExtractor / predict_phishing)

  Modelling conventions:
    * Python strings are Lean `String`s; all character-level operations go
      through `String.data : List Char`.  `str.lower()` is modelled as the
      per-character ASCII lowering `lowerChar` (the URLs and configuration
      tables involved are ASCII).
    * Python floats appear in two roles.  Classifier probabilities are
      modelled as rationals `ℚ`.  The two log-transformed features
      (`math.log(max(1, n))`) are stored symbolically as `FVal.log n`,
      recording the exact argument of the transform: no code in either file
      inspects these values, they are only handed to the opaque classifier.
    * `urllib.parse.urlparse` and `urllib.parse.parse_qs` are modelled by
      `urlparse` / `parseQsLen` below, following CPython's split algorithm
      (scheme / netloc / fragment / query order).  The `;params` splitting of
      the last path segment and percent-decoding of query keys are not
      modelled; no analysed claim depends on them and both pipeline copies
      share the single model.
    * The external `tldextract` library is modelled by `tldextract` below
      with a fixed public-suffix table (`psl`) and tldextract's fallback
      behaviour for unknown suffixes and IPv4 hosts.
    * Python dicts are ordered association lists `Dict`; `dict.update` is
      `pyDictUpdate` (replace in place when the key exists, append
      otherwise), `dict.get(k, d)` is `(lookup k).getD d`.
    * The classifier (`model.predict_proba(...)[0][1]`) is an opaque
      parameter `score : Dict → ℚ`; the `pd.DataFrame([features])[names]`
      column selection is `dfFromFeatures`.
    * The `try/except` wrappers in both files never fire in the model (all
      modelled operations are total), matching the fact that none of the
      analysed inputs raises in Python; the error branches are therefore not
      represented in `AnalysisResult`.
-/

namespace PhishDetect

/-- Feature values: Python ints (`FVal.i`) and the two float features
produced by `math.log(max(1, n))`, stored symbolically as `FVal.log n`. -/
inductive FVal where
  | i : ℤ → FVal
  | log : ℕ → FVal
deriving DecidableEq, Repr

/-- A Python dict from feature names to values, as an ordered assoc list. -/
abbrev Dict := List (String × FVal)

/-- Python `int(b)` for a boolean. -/
def bint (b : Bool) : ℤ := if b then 1 else 0

/-- ASCII lowering of one character, modelling `str.lower()` pointwise. -/
def lowerChar (c : Char) : Char :=
  if 65 ≤ c.toNat ∧ c.toNat ≤ 90 then Char.ofNat (c.toNat + 32) else c

/-- `str.lower()`. -/
def lower (s : String) : String := ⟨s.data.map lowerChar⟩

/-- `s.count(c)` for a single character. -/
def countC (s : String) (c : Char) : ℕ := s.data.count c

/-- `len(s)` (code points). -/
def strLen (s : String) : ℕ := s.data.length

/-- Boolean contiguous-sublist test: `needle` occurs inside `hay`. -/
def listInfixOf (needle : List Char) : List Char → Bool
  | [] => needle.isEmpty
  | h :: t => needle.isPrefixOf (h :: t) || listInfixOf needle t

/-- Python `sub in s` substring test. -/
def pyIn (sub s : String) : Bool := listInfixOf sub.data s.data

/-- Python `s.startswith(p)`. -/
def pyStartsWith (s p : String) : Bool := p.data.isPrefixOf s.data

/-- Python `str.split(sep)` on a single separator character. -/
def splitChar (sep : Char) : List Char → List (List Char)
  | [] => [[]]
  | c :: t =>
    match splitChar sep t with
    | [] => [[c]]
    | h :: r => if c = sep then [] :: h :: r else (c :: h) :: r

/-- Characters allowed after the first letter of a URL scheme. -/
def schemeChar (c : Char) : Bool := c.isAlpha || c.isDigit || c == '+' || c == '-' || c == '.'

/-- Result of `urllib.parse.urlparse`. -/
structure UrlParts where
  scheme : String
  netloc : String
  path : String
  query : String
  fragment : String
deriving DecidableEq, Repr

/-- Scheme splitting step of CPython `urlsplit`: a valid scheme before the
first colon is removed (lower-cased); otherwise the input is untouched. -/
def splitSchemeAux (l : List Char) : Option (List Char × List Char) :=
  let pre := l.takeWhile (· != ':')
  match l.dropWhile (· != ':') with
  | [] => none
  | _ :: restAfter =>
    match pre with
    | [] => none
    | c0 :: cs =>
      if c0.isAlpha && cs.all schemeChar then some (pre.map lowerChar, restAfter) else none

/-- Model of `urllib.parse.urlparse`: scheme, then `//netloc` up to the first
of `/?#`, then fragment after the first `#`, then query after the first `?`. -/
def urlparse (url : String) : UrlParts :=
  let l := url.data
  let sr := match splitSchemeAux l with
    | some p => p
    | none => ([], l)
  let scheme := sr.1
  let rest := sr.2
  let nr :=
    if ['/', '/'].isPrefixOf rest then
      let after := rest.drop 2
      (after.takeWhile (fun c => !(c == '/' || c == '?' || c == '#')),
       after.dropWhile (fun c => !(c == '/' || c == '?' || c == '#')))
    else ([], rest)
  let netloc := nr.1
  let rest2 := nr.2
  let rest3 := rest2.takeWhile (· != '#')
  let fragment := (rest2.dropWhile (· != '#')).drop 1
  let path := rest3.takeWhile (· != '?')
  let query := (rest3.dropWhile (· != '?')).drop 1
  ⟨⟨scheme⟩, ⟨netloc⟩, ⟨path⟩, ⟨query⟩, ⟨fragment⟩⟩

/-- Keys retained by `urllib.parse.parse_qs` (defaults: blank values and
fields without `=` are dropped); percent-decoding is not modelled. -/
def qsKeys (q : String) : List String :=
  (splitChar '&' q.data).filterMap fun f =>
    if f.isEmpty then none
    else
      match f.dropWhile (· != '=') with
      | [] => none
      | [_] => none
      | _ => some ⟨f.takeWhile (· != '=')⟩

/-- `len(parse_qs(q))`: the number of distinct retained query keys. -/
def parseQsLen (q : String) : ℕ := (qsKeys q).dedup.length

/-- One character of the `[0-9a-f]` class. -/
def isHexLowerDigit (c : Char) : Bool := c.isDigit || (decide ('a' ≤ c) && decide (c ≤ 'f'))

/-- `re.search(r'[0-9a-f]\x7b8\x7d', url)`: some 8-character window is all
lowercase-hex. -/
def hasHexRun8 (l : List Char) : Bool :=
  l.tails.any fun t => decide (8 ≤ t.length) && (t.take 8).all isHexLowerDigit

/-- Consume one maximal nonempty digit run (the regex `\d+`). -/
def spanDigits (l : List Char) : Option (List Char) :=
  if (l.takeWhile Char.isDigit).isEmpty then none else some (l.dropWhile Char.isDigit)

/-- Consume a literal dot followed by `\d+`. -/
def dotNum (l : List Char) : Option (List Char) :=
  match l with
  | '.' :: t => spanDigits t
  | _ => none

/-- Python `re.match` of the dotted-quad pattern at the start of a string. -/
def ipAtStart (l : List Char) : Bool :=
  ((((spanDigits l).bind dotNum).bind dotNum).bind dotNum).isSome

/-- Result of `tldextract.extract`. -/
structure ExtractResult where
  subdomain : String
  domain : String
  suffix : String
deriving DecidableEq, Repr

/-- Drop everything through the first `//`, if any (tldextract's lenient
scheme removal). -/
def dropThroughSlashes : List Char → Option (List Char)
  | [] => none
  | '/' :: '/' :: t => some t
  | _ :: t => dropThroughSlashes t

/-- tldextract's lenient netloc: after `//`, cut at `/?#`, drop userinfo
before the last `@`, cut the port at `:`. -/
def tldHostAux (l : List Char) : List Char :=
  let a := match dropThroughSlashes l with
    | some t => t
    | none => l
  let b := a.takeWhile (fun c => !(c == '/' || c == '?' || c == '#'))
  let c := (b.reverse.takeWhile (· != '@')).reverse
  c.takeWhile (· != ':')

/-- Fixed public-suffix table of the tldextract model (enough for the
configuration tables and examples in the repository). -/
def psl : List (List String) :=
  [["com"], ["net"], ["org"], ["io"], ["gov"], ["edu"], ["uk"], ["co", "uk"]]

/-- tldextract's special case: a dotted quad of all-digit labels. -/
def isIPv4Labels (labels : List String) : Bool :=
  decide (labels.length = 4) &&
    labels.all fun lab => !lab.data.isEmpty && lab.data.all Char.isDigit

/-- Model of `tldextract.extract`: lower-case the lenient host, split on
dots, take the longest public-suffix match; with no match the last label is
the domain; IPv4 hosts become the whole domain. -/
def tldextract (s : String) : ExtractResult :=
  let host : List Char := (tldHostAux s.data).map lowerChar
  let labels : List String := (splitChar '.' host).map fun l => ⟨l⟩
  if isIPv4Labels labels then ⟨"", ⟨host⟩, ""⟩
  else
    let k : ℕ :=
      if 2 ≤ labels.length ∧ labels.drop (labels.length - 2) ∈ psl then 2
      else if labels.drop (labels.length - 1) ∈ psl then 1
      else 0
    let pre := labels.take (labels.length - k)
    ⟨String.intercalate "." (pre.take (pre.length - 1)),
     (pre.getLast?).getD "",
     String.intercalate "." (labels.drop (labels.length - k))⟩

/-- The sensitive-word table (identical in both source files). -/
def sensitive_words : List String :=
  ["login", "signin", "verify", "account", "secure",
   "bank", "payment", "update", "confirm", "password"]

/-- `{name: 0 for name in feature_names}`. -/
def defaultFeatures (schema : List String) : Dict := schema.map fun n => (n, FVal.i 0)

/-- Python dict assignment: replace the value in place when the key is
present, append otherwise. -/
def dictSet (d : Dict) (k : String) (v : FVal) : Dict :=
  if (d.lookup k).isSome then d.map (fun p => if p.1 = k then (p.1, v) else p)
  else d ++ [(k, v)]

/-- Python `dict.update` with an ordered list of key/value pairs. -/
def pyDictUpdate (d : Dict) (us : Dict) : Dict :=
  us.foldl (fun acc kv => dictSet acc kv.1 kv.2) d

/-- `pd.DataFrame([features])[schema]`: the schema-ordered vector handed to
the classifier (every schema name is present in `features` by
initialization, so the default is never hit). -/
def dfFromFeatures (schema : List String) (features : Dict) : Dict :=
  schema.map fun n => (n, (features.lookup n).getD (FVal.i 0))

/-- Python `int(q)` on a rational: truncation toward zero. -/
def pyint (q : ℚ) : ℤ := if 0 ≤ q then q.floor else q.ceil

/-- Rational multiplication, written through `mkRat` so that concrete
instances evaluate by kernel reduction; `ratMul_eq_mul` identifies it with
`*`. -/
def ratMul (a b : ℚ) : ℚ := mkRat (a.num * b.num) (a.den * b.den)

/-- Verdict carried by the `result` string of both pipelines. -/
inductive Verdict where
  | legitimate
  | phishing
deriving DecidableEq, Repr

/-- The dict returned by `analyze` / `predict_phishing` (confidence is the
integer percentage). -/
structure AnalysisResult where
  verdict : Verdict
  confidence : ℤ
  threats : List String
  features : Dict
deriving DecidableEq, Repr

/-- Python truthiness of a feature value. -/
def truthy : FVal → Bool
  | .i n => decide (n ≠ 0)
  | .log n => decide (1 < n)

/-- Integer content of a feature value (only ever applied to int features). -/
def fvInt : FVal → ℤ
  | .i n => n
  | .log _ => 0

/-- The `official_domains` table of src/phishdetect.py. -/
def PhishingDetector.official_domains : List String :=
  ["paypal.com", "www.paypal.com", "paypalobjects.com",
   "amazon.com", "www.amazon.com", "amazonaws.com",
   "apple.com", "www.apple.com", "icloud.com",
   "google.com", "www.google.com", "googleapis.com",
   "microsoft.com", "www.microsoft.com", "live.com",
   "ebay.com", "www.ebay.com",
   "netflix.com", "www.netflix.com",
   "bankofamerica.com", "www.bankofamerica.com",
   "wellsfargo.com", "www.wellsfargo.com",
   "chase.com", "www.chase.com"]

/-- The `known_brands` table of src/phishdetect.py. -/
def PhishingDetector.known_brands : List String :=
  ["paypal", "amazon", "apple", "google", "microsoft",
   "ebay", "netflix", "bankofamerica", "wellsfargo", "chase"]

/-- `PhishingDetector.is_official` (src/phishdetect.py lines 46-50). -/
def PhishingDetector.is_official (hostname : String) : Bool :=
  let ext := tldextract (lower hostname)
  let base_domain := ext.domain ++ "." ++ ext.suffix
  PhishingDetector.official_domains.contains base_domain ||
    PhishingDetector.official_domains.contains (lower hostname)

/-- `PhishingDetector.check_brand_usage` (src/phishdetect.py lines 52-62). -/
def PhishingDetector.check_brand_usage (hostname : String) : ℤ :=
  if PhishingDetector.is_official hostname then 0
  else
    let ext := tldextract (lower hostname)
    let main_domain := ext.domain ++ "." ++ ext.suffix
    if PhishingDetector.known_brands.any
        (fun brand => pyIn brand (lower hostname) && !(pyIn brand main_domain))
    then 1 else 0

/-- The ordered `features.update({...})` argument of
`PhishingDetector.extract_features` (src/phishdetect.py lines 74-104). -/
def PhishingDetector.featureUpdates (schema : List String) (url : String) : Dict :=
  let parsed := urlparse url
  let ext := tldextract url
  let hostname := lower parsed.netloc
  let path := lower parsed.path
  let is_official := PhishingDetector.is_official hostname
  [("NumDots", .i (countC url '.')),
   ("SubdomainLevel", .i (countC ext.subdomain '.' + 1)),
   ("PathLevel", .i (if path = "" then 0 else (countC path '/' : ℤ) - 1)),
   ("UrlLength", .i (strLen url)),
   ("NumDash", .i (countC url '-')),
   ("NumDashInHostname", .i (countC hostname '-')),
   ("AtSymbol", .i (bint (pyIn "@" url))),
   ("TildeSymbol", .i (bint (pyIn "~" url))),
   ("NumUnderscore", .i (countC url '_')),
   ("NumPercent", .i (countC url '%')),
   ("NumQueryComponents", .i (parseQsLen parsed.query)),
   ("NumAmpersand", .i (countC url '&')),
   ("NumHash", .i (countC url '#')),
   ("NumNumericChars", .i (url.data.countP Char.isDigit)),
   ("NoHttps", .i (bint (parsed.scheme != "https"))),
   ("RandomString", .i (bint (hasHexRun8 url.data))),
   ("IpAddress", .i (bint (ipAtStart hostname.data))),
   ("HttpsInHostname", .i (bint (pyIn "https" hostname))),
   ("HostnameLength", .i (strLen hostname)),
   ("PathLength", .i (strLen path)),
   ("QueryLength", .i (strLen parsed.query)),
   ("DoubleSlashInPath", .i (bint (pyIn "//" path))),
   ("SubdomainLevelRT", .log (max 1 (countC ext.subdomain '.' + 1))),
   ("UrlLengthRT", .log (max 1 (strLen url))),
   ("IsOfficialDomain", .i (bint is_official)),
   ("BrandSpoofing",
     if "BrandSpoofing" ∈ schema
     then .i (PhishingDetector.check_brand_usage hostname) else .i 0),
   ("NumSensitiveWords",
     .i (if is_official then 0
         else (sensitive_words.countP (fun word => pyIn word (lower url)) : ℤ)))]

/-- `PhishingDetector.extract_features` (src/phishdetect.py lines 64-109):
the schema-default dict updated with the computed features. -/
def PhishingDetector.extract_features (schema : List String) (url : String) : Dict :=
  pyDictUpdate (defaultFeatures schema) (PhishingDetector.featureUpdates schema url)

/-- The URL normalization at the top of `PhishingDetector.analyze`
(src/phishdetect.py lines 113-114). -/
def pdNormalize (url : String) : String :=
  if pyStartsWith url "http://" || pyStartsWith url "https://" then url
  else "http://" ++ url

/-- `PhishingDetector.analyze` (src/phishdetect.py lines 111-146), with the
classifier `score` as an opaque parameter. -/
def PhishingDetector.analyze (score : Dict → ℚ) (schema : List String)
    (url : String) : AnalysisResult :=
  let url' := pdNormalize url
  let features := PhishingDetector.extract_features schema url'
  if truthy ((features.lookup "IsOfficialDomain").getD (FVal.i 0)) then
    ⟨Verdict.legitimate, 100, [], features⟩
  else
    let features_df := dfFromFeatures schema features
    let proba := score features_df
    let nsw := fvInt ((features.lookup "NumSensitiveWords").getD (FVal.i 0))
    let threats :=
      (if truthy ((features.lookup "NoHttps").getD (FVal.i 0)) then ["No HTTPS"] else [])
      ++ (if 2 < nsw then [toString nsw ++ " sensitive words"] else [])
      ++ (if truthy ((features.lookup "BrandSpoofing").getD (FVal.i 0))
          then ["Brand spoofing detected"] else [])
    ⟨if mkRat 7 10 < proba then Verdict.phishing else Verdict.legitimate,
     min 99 (pyint (ratMul proba 100)), threats, features⟩

/-- The `official_domains` table of src/phishdetect_fixed.py. -/
def URLFeatureExtractor.official_domains : List String :=
  ["paypal.com", "www.paypal.com",
   "amazon.com", "www.amazon.com",
   "apple.com", "www.apple.com",
   "google.com", "www.google.com",
   "microsoft.com", "www.microsoft.com"]

/-- The `brand_names` table inside `check_brand_spoofing`
(src/phishdetect_fixed.py line 46). -/
def URLFeatureExtractor.brand_names : List String :=
  ["paypal", "amazon", "apple", "google", "microsoft"]

/-- `URLFeatureExtractor.is_official_domain` (src/phishdetect_fixed.py
lines 33-35): exact membership of the lower-cased hostname only. -/
def URLFeatureExtractor.is_official_domain (hostname : String) : Bool :=
  URLFeatureExtractor.official_domains.contains (lower hostname)

/-- `URLFeatureExtractor.check_brand_spoofing` (src/phishdetect_fixed.py
lines 37-52). -/
def URLFeatureExtractor.check_brand_spoofing (hostname : String) : ℤ :=
  if URLFeatureExtractor.is_official_domain hostname then 0
  else
    let ext := tldextract (lower hostname)
    let main_domain := ext.domain ++ "." ++ ext.suffix
    if URLFeatureExtractor.brand_names.any
        (fun brand => pyIn brand (lower hostname) && !(pyIn brand main_domain))
    then 1 else 0

/-- The ordered `features.update({...})` argument of
`URLFeatureExtractor.extract_all_features` (src/phishdetect_fixed.py
lines 70-100); the path is not lower-cased in this copy. -/
def URLFeatureExtractor.featureUpdates (url : String) : Dict :=
  let parsed := urlparse url
  let ext := tldextract url
  let hostname := lower parsed.netloc
  let path := parsed.path
  let is_official := URLFeatureExtractor.is_official_domain hostname
  [("NumDots", .i (countC url '.')),
   ("SubdomainLevel", .i (countC ext.subdomain '.' + 1)),
   ("PathLevel", .i (if path = "" then 0 else (countC path '/' : ℤ) - 1)),
   ("UrlLength", .i (strLen url)),
   ("NumDash", .i (countC url '-')),
   ("NumDashInHostname", .i (countC hostname '-')),
   ("AtSymbol", .i (bint (pyIn "@" url))),
   ("TildeSymbol", .i (bint (pyIn "~" url))),
   ("NumUnderscore", .i (countC url '_')),
   ("NumPercent", .i (countC url '%')),
   ("NumQueryComponents", .i (parseQsLen parsed.query)),
   ("NumAmpersand", .i (countC url '&')),
   ("NumHash", .i (countC url '#')),
   ("NumNumericChars", .i (url.data.countP Char.isDigit)),
   ("NoHttps", .i (bint (parsed.scheme != "https"))),
   ("RandomString", .i (bint (hasHexRun8 url.data))),
   ("IpAddress", .i (bint (ipAtStart hostname.data))),
   ("HttpsInHostname", .i (bint (pyIn "https" hostname))),
   ("HostnameLength", .i (strLen hostname)),
   ("PathLength", .i (strLen path)),
   ("QueryLength", .i (strLen parsed.query)),
   ("DoubleSlashInPath", .i (bint (pyIn "//" path))),
   ("SubdomainLevelRT", .log (max 1 (countC ext.subdomain '.' + 1))),
   ("UrlLengthRT", .log (max 1 (strLen url))),
   ("IsOfficialDomain", .i (bint is_official)),
   ("BrandSpoofing",
     if is_official then .i 0
     else .i (URLFeatureExtractor.check_brand_spoofing hostname)),
   ("NumSensitiveWords",
     .i (if is_official then 0
         else (sensitive_words.countP (fun word => pyIn word (lower url)) : ℤ)))]

/-- `URLFeatureExtractor.extract_all_features` (src/phishdetect_fixed.py
lines 54-105). -/
def URLFeatureExtractor.extract_all_features (schema : List String) (url : String) : Dict :=
  pyDictUpdate (defaultFeatures schema) (URLFeatureExtractor.featureUpdates url)

/-- `predict_phishing` (src/phishdetect_fixed.py lines 156-193); note this
entry point performs no scheme normalization. -/
def predict_phishing (score : Dict → ℚ) (schema : List String)
    (url : String) : AnalysisResult :=
  let features := URLFeatureExtractor.extract_all_features schema url
  if truthy ((features.lookup "IsOfficialDomain").getD (FVal.i 0)) then
    ⟨Verdict.legitimate, 100, [], features⟩
  else
    let features_df := dfFromFeatures schema features
    let probability := score features_df
    let nsw := fvInt ((features.lookup "NumSensitiveWords").getD (FVal.i 0))
    let threat_indicators :=
      (if truthy ((features.lookup "NoHttps").getD (FVal.i 0)) then ["No HTTPS"] else [])
      ++ (if 2 < nsw then [toString nsw ++ " sensitive words"] else [])
      ++ (if truthy ((features.lookup "BrandSpoofing").getD (FVal.i 0))
          then ["Brand spoofing detected"] else [])
    ⟨if mkRat 7 10 < probability then Verdict.phishing else Verdict.legitimate,
     min 99 (pyint (ratMul probability 100)), threat_indicators, features⟩

/-- The ordered key list shared by both `featureUpdates` dict literals. -/
def featureNames : List String :=
  ["NumDots", "SubdomainLevel", "PathLevel", "UrlLength", "NumDash",
   "NumDashInHostname", "AtSymbol", "TildeSymbol", "NumUnderscore",
   "NumPercent", "NumQueryComponents", "NumAmpersand", "NumHash",
   "NumNumericChars", "NoHttps", "RandomString", "IpAddress",
   "HttpsInHostname", "HostnameLength", "PathLength", "QueryLength",
   "DoubleSlashInPath", "SubdomainLevelRT", "UrlLengthRT",
   "IsOfficialDomain", "BrandSpoofing", "NumSensitiveWords"]

/-- A concrete feature schema used to instantiate claims on concrete inputs
(a subset of the offline schema's names plus one name the extractor never
computes, `PctExtHyperlinks`). -/
def schema0 : List String :=
  ["NumDots", "SubdomainLevel", "PathLevel", "UrlLength", "NumDash", "NoHttps",
   "RandomString", "IpAddress", "HostnameLength", "NumSensitiveWords",
   "BrandSpoofing", "IsOfficialDomain", "PctExtHyperlinks"]

/-- Value of the last entry for a key in an update list (the value a Python
dict holds for that key after applying the whole update list). -/
def lastVal (k : String) (us : Dict) : Option FVal :=
  us.foldl (fun acc kv => if kv.1 = k then some kv.2 else acc) none

theorem lookup_cons (k k₁ : String) (v₁ : FVal) (t : Dict) :
    List.lookup k ((k₁, v₁) :: t) = if k₁ = k then some v₁ else List.lookup k t := by
  simp only [List.lookup]
  by_cases h : k₁ = k
  · have hbeq : (k == k₁) = true := by
      simp only [beq_iff_eq]
      exact h.symm
    rw [if_pos h, hbeq]
  · have hbeq : (k == k₁) = false := by
      simp only [beq_eq_false_iff_ne, ne_eq]
      exact fun he => h he.symm
    rw [if_neg h, hbeq]

theorem lookup_map_set_self (t : Dict) (k : String) (v : FVal)
    (h : (List.lookup k t).isSome) :
    List.lookup k (t.map (fun p => if p.1 = k then (p.1, v) else p)) = some v := by
  induction t with
  | nil => simp [List.lookup] at h
  | cons a t ih =>
    obtain ⟨k₁, v₁⟩ := a
    by_cases hk : k₁ = k
    · subst hk
      simp [lookup_cons]
    · rw [lookup_cons, if_neg hk] at h
      simp only [List.map_cons]
      rw [if_neg hk, lookup_cons, if_neg hk]
      exact ih h

theorem lookup_map_set_ne (t : Dict) (k k' : String) (v : FVal) (hne : k' ≠ k) :
    List.lookup k' (t.map (fun p => if p.1 = k then (p.1, v) else p)) =
      List.lookup k' t := by
  induction t with
  | nil => rfl
  | cons a t ih =>
    obtain ⟨k₁, v₁⟩ := a
    simp only [List.map_cons]
    by_cases hk : k₁ = k
    · have hne' : k₁ ≠ k' := fun he => hne (he.symm.trans hk)
      rw [if_pos hk, lookup_cons, lookup_cons, if_neg hne', if_neg hne']
      exact ih
    · rw [if_neg hk, lookup_cons, lookup_cons]
      by_cases hk' : k₁ = k'
      · rw [if_pos hk', if_pos hk']
      · rw [if_neg hk', if_neg hk']
        exact ih

theorem lookup_append_one_self (d : Dict) (k : String) (v : FVal)
    (h : List.lookup k d = none) :
    List.lookup k (d ++ [(k, v)]) = some v := by
  induction d with
  | nil => simp [lookup_cons]
  | cons a t ih =>
    obtain ⟨k₁, v₁⟩ := a
    rw [lookup_cons] at h
    by_cases hk : k₁ = k
    · rw [if_pos hk] at h
      exact absurd h (by simp)
    · rw [if_neg hk] at h
      rw [List.cons_append, lookup_cons, if_neg hk]
      exact ih h

theorem lookup_append_one_ne (d : Dict) (k k' : String) (v : FVal) (hne : k' ≠ k) :
    List.lookup k' (d ++ [(k, v)]) = List.lookup k' d := by
  induction d with
  | nil =>
    rw [List.nil_append, lookup_cons, if_neg (fun he => hne he.symm)]
  | cons a t ih =>
    obtain ⟨k₁, v₁⟩ := a
    rw [List.cons_append, lookup_cons, lookup_cons]
    by_cases hk' : k₁ = k'
    · rw [if_pos hk', if_pos hk']
    · rw [if_neg hk', if_neg hk']
      exact ih

theorem lookup_dictSet_self (d : Dict) (k : String) (v : FVal) :
    List.lookup k (dictSet d k v) = some v := by
  unfold dictSet
  by_cases h : (List.lookup k d).isSome
  · rw [if_pos h]
    exact lookup_map_set_self d k v h
  · rw [if_neg h]
    rw [Option.not_isSome_iff_eq_none] at h
    exact lookup_append_one_self d k v h

theorem lookup_dictSet_ne (d : Dict) (k k' : String) (v : FVal) (hne : k' ≠ k) :
    List.lookup k' (dictSet d k v) = List.lookup k' d := by
  unfold dictSet
  by_cases h : (List.lookup k d).isSome
  · rw [if_pos h]
    exact lookup_map_set_ne d k k' v hne
  · rw [if_neg h]
    exact lookup_append_one_ne d k k' v hne

theorem lastVal_append_one (k : String) (us : Dict) (u : String × FVal) :
    lastVal k (us ++ [u]) = if u.1 = k then some u.2 else lastVal k us := by
  simp [lastVal, List.foldl_append]

theorem lookup_pyDictUpdate (d : Dict) (us : Dict) (k : String) :
    List.lookup k (pyDictUpdate d us) =
      ((lastVal k us).elim (List.lookup k d) some) := by
  induction us using List.reverseRecOn with
  | nil => simp [pyDictUpdate, lastVal]
  | append_singleton us u ih =>
    rw [pyDictUpdate, List.foldl_append]
    rw [lastVal_append_one]
    by_cases hk : u.1 = k
    · simp only [List.foldl_cons, List.foldl_nil, if_pos hk, Option.elim]
      rw [← hk]
      exact lookup_dictSet_self _ _ _
    · simp only [List.foldl_cons, List.foldl_nil, if_neg hk]
      rw [lookup_dictSet_ne _ _ _ _ (fun he => hk he.symm)]
      exact ih

theorem lastVal_eq_none (n : String) (us : Dict) (h : ∀ kv ∈ us, kv.1 ≠ n) :
    lastVal n us = none := by
  induction us with
  | nil => rfl
  | cons a t ih =>
    simp only [lastVal, List.foldl_cons, if_neg (h a (List.mem_cons_self a t))]
    exact ih (fun kv hkv => h kv (List.mem_cons_of_mem a hkv))

theorem lastVal_congr {us₁ us₂ : Dict} (n : String)
    (h : List.Forall₂ (fun a b => a.1 = b.1 ∧ (a.1 = n → a.2 = b.2)) us₁ us₂) :
    lastVal n us₁ = lastVal n us₂ := by
  have H : ∀ acc : Option FVal,
      us₁.foldl (fun acc kv => if kv.1 = n then some kv.2 else acc) acc =
        us₂.foldl (fun acc kv => if kv.1 = n then some kv.2 else acc) acc := by
    induction h with
    | nil => intro acc; rfl
    | @cons a b l₁ l₂ hab htl ih =>
      intro acc
      obtain ⟨hk, hv⟩ := hab
      rw [List.foldl_cons, List.foldl_cons]
      by_cases hkn : a.1 = n
      · rw [if_pos hkn, if_pos (hk.symm.trans hkn), hv hkn]
        exact ih _
      · rw [if_neg hkn, if_neg (fun hbn => hkn (hk.trans hbn))]
        exact ih _
  exact H none

theorem lookup_defaultFeatures (schema : List String) (n : String) (h : n ∈ schema) :
    List.lookup n (defaultFeatures schema) = some (FVal.i 0) := by
  induction schema with
  | nil => cases h
  | cons a t ih =>
    rw [defaultFeatures, List.map_cons, lookup_cons]
    by_cases ha : a = n
    · rw [if_pos ha]
    · rw [if_neg ha]
      rcases List.mem_cons.mp h with rfl | hm
      · exact absurd rfl ha
      · exact ih hm

theorem map_fst_featureUpdates_py (schema : List String) (url : String) :
    (PhishingDetector.featureUpdates schema url).map Prod.fst = featureNames := rfl

theorem map_fst_featureUpdates_fx (url : String) :
    (URLFeatureExtractor.featureUpdates url).map Prod.fst = featureNames := rfl

theorem toNat_ofNat_lt {n : ℕ} (h : n < 55296) : (Char.ofNat n).toNat = n := by
  simp only [Char.ofNat]
  rw [dif_pos (Or.inl h)]
  rfl

theorem lowerChar_eq_slash_iff (c : Char) : lowerChar c = '/' ↔ c = '/' := by
  unfold lowerChar
  by_cases h : 65 ≤ c.toNat ∧ c.toNat ≤ 90
  · rw [if_pos h]
    constructor
    · intro he
      exfalso
      have h1 : (Char.ofNat (c.toNat + 32)).toNat = c.toNat + 32 :=
        toNat_ofNat_lt (by omega)
      rw [he] at h1
      have h2 : ('/' : Char).toNat = 47 := rfl
      omega
    · intro he
      exfalso
      have h2 : ('/' : Char).toNat = 47 := rfl
      rw [he] at h
      omega
  · rw [if_neg h]

theorem lowerChar_beq_slash (c : Char) : (lowerChar c == '/') = (c == '/') := by
  by_cases h : c = '/'
  · have h' : lowerChar c = '/' := (lowerChar_eq_slash_iff c).mpr h
    rw [beq_iff_eq.mpr h', beq_iff_eq.mpr h]
  · have h' : ¬ lowerChar c = '/' := fun he => h ((lowerChar_eq_slash_iff c).mp he)
    rw [beq_eq_false_iff_ne.mpr h', beq_eq_false_iff_ne.mpr h]

theorem slash_beq_lowerChar (c : Char) : ('/' == lowerChar c) = ('/' == c) := by
  by_cases h : c = '/'
  · have h' : lowerChar c = '/' := (lowerChar_eq_slash_iff c).mpr h
    rw [beq_iff_eq.mpr h'.symm, beq_iff_eq.mpr h.symm]
  · have h' : ¬ lowerChar c = '/' := fun he => h ((lowerChar_eq_slash_iff c).mp he)
    rw [beq_eq_false_iff_ne.mpr (fun he => h' he.symm),
        beq_eq_false_iff_ne.mpr (fun he => h he.symm)]

theorem count_slash_map_lowerChar (l : List Char) :
    (l.map lowerChar).count '/' = l.count '/' := by
  induction l with
  | nil => rfl
  | cons c t ih =>
    rw [List.map_cons, List.count_cons, List.count_cons, ih, lowerChar_beq_slash]

theorem isPrefixOf_slashes_map (l : List Char) :
    (['/', '/'].isPrefixOf (l.map lowerChar)) = (['/', '/'].isPrefixOf l) := by
  match l with
  | [] => rfl
  | [c] =>
    simp [List.isPrefixOf]
  | c :: c' :: t =>
    simp [List.isPrefixOf, lowerChar_beq_slash, slash_beq_lowerChar]

theorem infix_slashes_map (l : List Char) :
    listInfixOf ['/', '/'] (l.map lowerChar) = listInfixOf ['/', '/'] l := by
  induction l with
  | nil => rfl
  | cons c t ih =>
    rw [List.map_cons]
    simp only [listInfixOf, ih]
    have h := isPrefixOf_slashes_map (c :: t)
    rw [List.map_cons] at h
    rw [h]

theorem countC_lower_slash (s : String) : countC (lower s) '/' = countC s '/' :=
  count_slash_map_lowerChar s.data

theorem strLen_lower (s : String) : strLen (lower s) = strLen s := by
  simp [strLen, lower]

theorem lower_eq_empty_iff (s : String) : lower s = "" ↔ s = "" := by
  constructor
  · intro h
    have hd : s.data.map lowerChar = [] := congrArg String.data h
    have : s.data = [] := List.map_eq_nil_iff.mp hd
    cases s
    simp_all
  · intro h
    rw [h]
    rfl

theorem pyIn_slashes_lower (s : String) : pyIn "//" (lower s) = pyIn "//" s :=
  infix_slashes_map s.data

theorem truthy_bint (b : Bool) : truthy (FVal.i (bint b)) = b := by
  cases b <;> rfl

theorem extract_py_IsOfficialDomain (schema : List String) (url : String) :
    List.lookup "IsOfficialDomain" (PhishingDetector.extract_features schema url) =
      some (.i (bint (PhishingDetector.is_official (lower (urlparse url).netloc)))) := by
  rw [PhishingDetector.extract_features, lookup_pyDictUpdate]
  simp only [PhishingDetector.featureUpdates, lastVal, List.foldl_cons, List.foldl_nil]
  simp +decide

theorem extract_py_NoHttps (schema : List String) (url : String) :
    List.lookup "NoHttps" (PhishingDetector.extract_features schema url) =
      some (.i (bint ((urlparse url).scheme != "https"))) := by
  rw [PhishingDetector.extract_features, lookup_pyDictUpdate]
  simp only [PhishingDetector.featureUpdates, lastVal, List.foldl_cons, List.foldl_nil]
  simp +decide

theorem extract_py_NumSensitiveWords (schema : List String) (url : String) :
    List.lookup "NumSensitiveWords" (PhishingDetector.extract_features schema url) =
      some (.i (if PhishingDetector.is_official (lower (urlparse url).netloc) then 0
        else (sensitive_words.countP (fun word => pyIn word (lower url)) : ℤ))) := by
  rw [PhishingDetector.extract_features, lookup_pyDictUpdate]
  simp only [PhishingDetector.featureUpdates, lastVal, List.foldl_cons, List.foldl_nil]
  simp +decide

theorem extract_fx_IsOfficialDomain (schema : List String) (url : String) :
    List.lookup "IsOfficialDomain" (URLFeatureExtractor.extract_all_features schema url) =
      some (.i (bint (URLFeatureExtractor.is_official_domain (lower (urlparse url).netloc)))) := by
  rw [URLFeatureExtractor.extract_all_features, lookup_pyDictUpdate]
  simp only [URLFeatureExtractor.featureUpdates, lastVal, List.foldl_cons, List.foldl_nil]
  simp +decide

theorem analyze_official (score : Dict → ℚ) (schema : List String) (url : String)
    (h : PhishingDetector.is_official (lower ((urlparse (pdNormalize url)).netloc)) = true) :
    PhishingDetector.analyze score schema url =
      ⟨Verdict.legitimate, 100, [],
       PhishingDetector.extract_features schema (pdNormalize url)⟩ := by
  simp only [PhishingDetector.analyze, extract_py_IsOfficialDomain, h, Option.getD_some, truthy_bint,
    Bool.false_eq_true, if_false, eq_self_iff_true, if_true]

theorem analyze_statistical (score : Dict → ℚ) (schema : List String) (url : String)
    (h : PhishingDetector.is_official (lower ((urlparse (pdNormalize url)).netloc)) = false) :
    PhishingDetector.analyze score schema url =
      (let features := PhishingDetector.extract_features schema (pdNormalize url)
       let proba := score (dfFromFeatures schema features)
       let nsw := fvInt ((features.lookup "NumSensitiveWords").getD (FVal.i 0))
       ⟨if mkRat 7 10 < proba then Verdict.phishing else Verdict.legitimate,
        min 99 (pyint (ratMul proba 100)),
        (if truthy ((features.lookup "NoHttps").getD (FVal.i 0))
          then ["No HTTPS"] else [])
        ++ (if 2 < nsw then [toString nsw ++ " sensitive words"] else [])
        ++ (if truthy ((features.lookup "BrandSpoofing").getD (FVal.i 0))
            then ["Brand spoofing detected"] else []),
        features⟩) := by
  simp only [PhishingDetector.analyze, extract_py_IsOfficialDomain, h, Option.getD_some, truthy_bint,
    Bool.false_eq_true, if_false, eq_self_iff_true, if_true]

theorem predict_official (score : Dict → ℚ) (schema : List String) (url : String)
    (h : URLFeatureExtractor.is_official_domain (lower ((urlparse url).netloc)) = true) :
    predict_phishing score schema url =
      ⟨Verdict.legitimate, 100, [],
       URLFeatureExtractor.extract_all_features schema url⟩ := by
  simp only [predict_phishing, extract_fx_IsOfficialDomain, h, Option.getD_some, truthy_bint,
    Bool.false_eq_true, if_false, eq_self_iff_true, if_true]

theorem predict_statistical (score : Dict → ℚ) (schema : List String) (url : String)
    (h : URLFeatureExtractor.is_official_domain (lower ((urlparse url).netloc)) = false) :
    predict_phishing score schema url =
      (let features := URLFeatureExtractor.extract_all_features schema url
       let probability := score (dfFromFeatures schema features)
       let nsw := fvInt ((features.lookup "NumSensitiveWords").getD (FVal.i 0))
       ⟨if mkRat 7 10 < probability then Verdict.phishing else Verdict.legitimate,
        min 99 (pyint (ratMul probability 100)),
        (if truthy ((features.lookup "NoHttps").getD (FVal.i 0))
          then ["No HTTPS"] else [])
        ++ (if 2 < nsw then [toString nsw ++ " sensitive words"] else [])
        ++ (if truthy ((features.lookup "BrandSpoofing").getD (FVal.i 0))
            then ["Brand spoofing detected"] else []),
        features⟩) := by
  simp only [predict_phishing, extract_fx_IsOfficialDomain, h, Option.getD_some, truthy_bint,
    Bool.false_eq_true, if_false, eq_self_iff_true, if_true]

theorem ratMul_eq_mul (a b : ℚ) : ratMul a b = a * b := by
  rw [ratMul, Rat.mkRat_eq_div]
  push_cast
  rw [← div_mul_div_comm, Rat.num_div_den, Rat.num_div_den]

theorem rat_floor_eq_floor (q : ℚ) : q.floor = ⌊q⌋ := by
  rw [Rat.floor_def, Rat.floor_def']

theorem pyint_of_nonneg {q : ℚ} (h : 0 ≤ q) : pyint q = ⌊q⌋ := by
  rw [pyint, if_pos h, rat_floor_eq_floor]

theorem mkRat_seven_ten : mkRat 7 10 = 7 / 10 := by
  norm_num [Rat.mkRat_eq_div]

theorem featureUpdates_agree (schema : List String) (url : String) (n : String)
    (h1 : n ≠ "IsOfficialDomain") (h2 : n ≠ "BrandSpoofing")
    (h3 : n ≠ "NumSensitiveWords") :
    lastVal n (PhishingDetector.featureUpdates schema url) =
      lastVal n (URLFeatureExtractor.featureUpdates url) := by
  apply lastVal_congr
  simp only [PhishingDetector.featureUpdates, URLFeatureExtractor.featureUpdates]
  exact .cons ⟨rfl, fun _ => rfl⟩    -- NumDots
    (.cons ⟨rfl, fun _ => rfl⟩      -- SubdomainLevel
    (.cons ⟨rfl, fun _ => by        -- PathLevel
        simp [lower_eq_empty_iff, countC_lower_slash]⟩
    (.cons ⟨rfl, fun _ => rfl⟩      -- UrlLength
    (.cons ⟨rfl, fun _ => rfl⟩      -- NumDash
    (.cons ⟨rfl, fun _ => rfl⟩      -- NumDashInHostname
    (.cons ⟨rfl, fun _ => rfl⟩      -- AtSymbol
    (.cons ⟨rfl, fun _ => rfl⟩      -- TildeSymbol
    (.cons ⟨rfl, fun _ => rfl⟩      -- NumUnderscore
    (.cons ⟨rfl, fun _ => rfl⟩      -- NumPercent
    (.cons ⟨rfl, fun _ => rfl⟩      -- NumQueryComponents
    (.cons ⟨rfl, fun _ => rfl⟩      -- NumAmpersand
    (.cons ⟨rfl, fun _ => rfl⟩      -- NumHash
    (.cons ⟨rfl, fun _ => rfl⟩      -- NumNumericChars
    (.cons ⟨rfl, fun _ => rfl⟩      -- NoHttps
    (.cons ⟨rfl, fun _ => rfl⟩      -- RandomString
    (.cons ⟨rfl, fun _ => rfl⟩      -- IpAddress
    (.cons ⟨rfl, fun _ => rfl⟩      -- HttpsInHostname
    (.cons ⟨rfl, fun _ => rfl⟩      -- HostnameLength
    (.cons ⟨rfl, fun _ => by        -- PathLength
        simp [strLen_lower]⟩
    (.cons ⟨rfl, fun _ => rfl⟩      -- QueryLength
    (.cons ⟨rfl, fun _ => by        -- DoubleSlashInPath
        simp [pyIn_slashes_lower]⟩
    (.cons ⟨rfl, fun _ => rfl⟩      -- SubdomainLevelRT
    (.cons ⟨rfl, fun _ => rfl⟩      -- UrlLengthRT
    (.cons ⟨rfl, fun hh => absurd hh.symm h1⟩   -- IsOfficialDomain
    (.cons ⟨rfl, fun hh => absurd hh.symm h2⟩   -- BrandSpoofing
    (.cons ⟨rfl, fun hh => absurd hh.symm h3⟩   -- NumSensitiveWords
    .nil))))))))))))))))))))))))))

theorem extract_features_agree (schema : List String) (url : String) (n : String)
    (h1 : n ≠ "IsOfficialDomain") (h2 : n ≠ "BrandSpoofing")
    (h3 : n ≠ "NumSensitiveWords") :
    List.lookup n (PhishingDetector.extract_features schema url) =
      List.lookup n (URLFeatureExtractor.extract_all_features schema url) := by
  rw [PhishingDetector.extract_features, URLFeatureExtractor.extract_all_features,
    lookup_pyDictUpdate, lookup_pyDictUpdate,
    featureUpdates_agree schema url n h1 h2 h3]

theorem lowerChar_idem (c : Char) : lowerChar (lowerChar c) = lowerChar c := by
  unfold lowerChar
  by_cases h : 65 ≤ c.toNat ∧ c.toNat ≤ 90
  · rw [if_pos h]
    have ht : (Char.ofNat (c.toNat + 32)).toNat = c.toNat + 32 :=
      toNat_ofNat_lt (by omega)
    rw [if_neg (by rw [ht]; omega)]
  · rw [if_neg h, if_neg h]

theorem lower_idem (s : String) : lower (lower s) = lower s := by
  have hmap : ∀ l : List Char, (l.map lowerChar).map lowerChar = l.map lowerChar := by
    intro l
    induction l with
    | nil => rfl
    | cons c t ih => simp [lowerChar_idem, ih]
  simp [lower, hmap]

theorem scheme_http_prepend (s : String) : (urlparse ("http://" ++ s)).scheme = "http" := by
  have hdata : ("http://" ++ s).data =
      'h' :: 't' :: 't' :: 'p' :: ':' :: '/' :: '/' :: s.data := by
    cases s
    rfl
  simp only [urlparse, splitSchemeAux, hdata]
  simp +decide [List.takeWhile, List.dropWhile]

theorem verdict_mk (v : Verdict) (c : ℤ) (t : List String) (f : Dict) :
    (AnalysisResult.mk v c t f).verdict = v := rfl

theorem confidence_mk (v : Verdict) (c : ℤ) (t : List String) (f : Dict) :
    (AnalysisResult.mk v c t f).confidence = c := rfl

theorem threats_mk (v : Verdict) (c : ℤ) (t : List String) (f : Dict) :
    (AnalysisResult.mk v c t f).threats = t := rfl

theorem features_mk (v : Verdict) (c : ℤ) (t : List String) (f : Dict) :
    (AnalysisResult.mk v c t f).features = f := rfl

/-- C1: for every URL whose hostname is officially listed — the full
lower-cased hostname or its computed registrable domain is a member of
`officialDomains` — `analyze` returns verdict Legitimate with
confidencePercent 100 and empty threatIndicators, and the classifier is
never invoked (the result does not depend on the score function). -/
theorem c1_official_short_circuit (url : String) (schema : List String)
    (score score' : Dict → ℚ)
    (h : PhishingDetector.official_domains.contains
          (lower ((urlparse (pdNormalize url)).netloc)) = true ∨
        PhishingDetector.official_domains.contains
          ((tldextract (lower ((urlparse (pdNormalize url)).netloc))).domain ++ "." ++
           (tldextract (lower ((urlparse (pdNormalize url)).netloc))).suffix) = true) :
    (PhishingDetector.analyze score schema url).verdict = Verdict.legitimate ∧
    (PhishingDetector.analyze score schema url).confidence = 100 ∧
    (PhishingDetector.analyze score schema url).threats = [] ∧
    PhishingDetector.analyze score schema url =
      PhishingDetector.analyze score' schema url := by
  have hio : PhishingDetector.is_official
      (lower ((urlparse (pdNormalize url)).netloc)) = true := by
    simp only [PhishingDetector.is_official, lower_idem]
    rcases h with h | h
    · rw [h, Bool.or_true]
    · rw [h, Bool.true_or]
  rw [analyze_official score schema url hio, analyze_official score' schema url hio]
  exact ⟨rfl, rfl, rfl, rfl⟩

/-- C1 witness: `http://paypal.com` is officially listed and the theorem's
conclusions hold there for two different score functions. -/
theorem c1_official_short_circuit_witness :
    (PhishingDetector.analyze (fun _ => mkRat 9 10) schema0 "http://paypal.com").verdict =
      Verdict.legitimate ∧
    (PhishingDetector.analyze (fun _ => mkRat 9 10) schema0 "http://paypal.com").confidence = 100 ∧
    (PhishingDetector.analyze (fun _ => mkRat 9 10) schema0 "http://paypal.com").threats = [] ∧
    PhishingDetector.analyze (fun _ => mkRat 9 10) schema0 "http://paypal.com" =
      PhishingDetector.analyze (fun _ => mkRat 1 10) schema0 "http://paypal.com" :=
  c1_official_short_circuit "http://paypal.com" schema0 _ _ (Or.inl (by decide))

/-- C2 counterexample: on the official-domain override branch at
`http://paypal.com`, the returned features are not the all-default schema
vector with only IsOfficialDomain set — the schema feature UrlLength
carries the computed value 17, not 0. -/
theorem c2_counterexample :
    ¬ (∀ n ∈ schema0, n ≠ "IsOfficialDomain" →
        List.lookup n
          (PhishingDetector.analyze (fun _ => mkRat 1 2) schema0 "http://paypal.com").features =
          some (FVal.i 0)) := by
  intro hall
  exact absurd (hall "UrlLength" (by decide) (by decide)) (by decide)

/-- C2 amended: on the official-domain override branch, the features field
of the returned result is the fully computed feature vector of the
normalized URL (in which IsOfficialDomain is 1), not the all-default
schema vector. -/
theorem c2_override_features (url : String) (schema : List String) (score : Dict → ℚ)
    (h : PhishingDetector.is_official
      (lower ((urlparse (pdNormalize url)).netloc)) = true) :
    (PhishingDetector.analyze score schema url).features =
      PhishingDetector.extract_features schema (pdNormalize url) ∧
    List.lookup "IsOfficialDomain"
        (PhishingDetector.analyze score schema url).features = some (FVal.i 1) := by
  rw [analyze_official score schema url h, features_mk]
  refine ⟨rfl, ?_⟩
  rw [extract_py_IsOfficialDomain, h]
  rfl

/-- C2 amended witness: the override branch at `http://paypal.com` returns
the fully computed vector with IsOfficialDomain 1. -/
theorem c2_override_features_witness :
    (PhishingDetector.analyze (fun _ => mkRat 1 2) schema0 "http://paypal.com").features =
      PhishingDetector.extract_features schema0 (pdNormalize "http://paypal.com") ∧
    List.lookup "IsOfficialDomain"
        (PhishingDetector.analyze (fun _ => mkRat 1 2) schema0 "http://paypal.com").features =
      some (FVal.i 1) :=
  c2_override_features "http://paypal.com" schema0 _ (by decide)

/-- C3: the vector handed to the classifier carries exactly the schema's
names in the schema's declared order (so any computed feature outside the
schema is dropped), and any schema name the extractor does not compute
appears with value 0. -/
theorem c3_schema_vector (url : String) (schema : List String) :
    (dfFromFeatures schema
        (PhishingDetector.extract_features schema (pdNormalize url))).map Prod.fst = schema ∧
    (∀ n, n ∉ schema →
      n ∉ (dfFromFeatures schema
        (PhishingDetector.extract_features schema (pdNormalize url))).map Prod.fst) ∧
    (∀ n, n ∈ schema → n ∉ featureNames →
      List.lookup n (PhishingDetector.extract_features schema (pdNormalize url)) =
        some (FVal.i 0)) := by
  have hmap : (dfFromFeatures schema
      (PhishingDetector.extract_features schema (pdNormalize url))).map Prod.fst = schema := by
    simp [dfFromFeatures, List.map_map, Function.comp_def]
  refine ⟨hmap, fun n hn => by rw [hmap]; exact hn, fun n hns hnc => ?_⟩
  have hnone : lastVal n (PhishingDetector.featureUpdates schema (pdNormalize url)) = none := by
    apply lastVal_eq_none
    intro kv hkv heq
    apply hnc
    rw [← map_fst_featureUpdates_py schema (pdNormalize url)]
    exact heq ▸ List.mem_map_of_mem Prod.fst hkv
  rw [PhishingDetector.extract_features, lookup_pyDictUpdate, hnone]
  exact lookup_defaultFeatures schema n hns

/-- C3 witness: at a concrete URL and schema the classifier vector's names
are exactly the schema, and the uncomputed schema name `PctExtHyperlinks`
is present with value 0. -/
theorem c3_schema_vector_witness :
    (dfFromFeatures schema0
        (PhishingDetector.extract_features schema0 (pdNormalize "http://evil.com"))).map
      Prod.fst = schema0 ∧
    List.lookup "PctExtHyperlinks"
        (PhishingDetector.extract_features schema0 (pdNormalize "http://evil.com")) =
      some (FVal.i 0) :=
  ⟨(c3_schema_vector "http://evil.com" schema0).1,
   (c3_schema_vector "http://evil.com" schema0).2.2 "PctExtHyperlinks" (by decide) (by decide)⟩

/-- C4: on the statistical branch of both pipelines, the verdict is
Phishing exactly when the classifier's probability strictly exceeds 0.7;
in particular probability exactly 0.7 yields Legitimate. -/
theorem c4_threshold (url : String) (schema : List String) (score : Dict → ℚ) :
    (PhishingDetector.is_official (lower ((urlparse (pdNormalize url)).netloc)) = false →
      ((PhishingDetector.analyze score schema url).verdict = Verdict.phishing ↔
        7 / 10 < score (dfFromFeatures schema
          (PhishingDetector.extract_features schema (pdNormalize url))))) ∧
    (URLFeatureExtractor.is_official_domain (lower ((urlparse url).netloc)) = false →
      ((predict_phishing score schema url).verdict = Verdict.phishing ↔
        7 / 10 < score (dfFromFeatures schema
          (URLFeatureExtractor.extract_all_features schema url)))) := by
  constructor
  · intro h
    rw [analyze_statistical score schema url h, ← mkRat_seven_ten]
    show (if mkRat 7 10 < score (dfFromFeatures schema
        (PhishingDetector.extract_features schema (pdNormalize url)))
      then Verdict.phishing else Verdict.legitimate) = Verdict.phishing ↔ _
    by_cases hp : mkRat 7 10 < score (dfFromFeatures schema
        (PhishingDetector.extract_features schema (pdNormalize url)))
    · simp [hp]
    · simp [hp]
  · intro h
    rw [predict_statistical score schema url h, ← mkRat_seven_ten]
    show (if mkRat 7 10 < score (dfFromFeatures schema
        (URLFeatureExtractor.extract_all_features schema url))
      then Verdict.phishing else Verdict.legitimate) = Verdict.phishing ↔ _
    by_cases hp : mkRat 7 10 < score (dfFromFeatures schema
        (URLFeatureExtractor.extract_all_features schema url))
    · simp [hp]
    · simp [hp]

/-- C4 witness: a constant score of exactly 7/10 on a non-official URL
yields Legitimate in both pipelines. -/
theorem c4_threshold_witness :
    (PhishingDetector.analyze (fun _ => mkRat 7 10) schema0 "http://evil.com").verdict ≠
      Verdict.phishing ∧
    (predict_phishing (fun _ => mkRat 7 10) schema0 "http://evil.com").verdict ≠
      Verdict.phishing := by
  constructor
  · intro hv
    have h := ((c4_threshold "http://evil.com" schema0 (fun _ => mkRat 7 10)).1
      (by decide)).mp hv
    rw [← mkRat_seven_ten] at h
    exact absurd h (by decide)
  · intro hv
    have h := ((c4_threshold "http://evil.com" schema0 (fun _ => mkRat 7 10)).2
      (by decide)).mp hv
    rw [← mkRat_seven_ten] at h
    exact absurd h (by decide)

/-- C5: on the statistical branch, for a classifier probability in the
unit interval the confidence equals min 99 (floor of 100 p), hence lies in
the interval from 0 to 99 and never reaches 100; confidence 100 arises
exactly on the official-domain override branch. -/
theorem c5_confidence (url : String) (schema : List String) (score : Dict → ℚ) :
    (PhishingDetector.is_official (lower ((urlparse (pdNormalize url)).netloc)) = true →
      (PhishingDetector.analyze score schema url).confidence = 100) ∧
    (PhishingDetector.is_official (lower ((urlparse (pdNormalize url)).netloc)) = false →
      0 ≤ score (dfFromFeatures schema
        (PhishingDetector.extract_features schema (pdNormalize url))) →
      score (dfFromFeatures schema
        (PhishingDetector.extract_features schema (pdNormalize url))) ≤ 1 →
      (PhishingDetector.analyze score schema url).confidence =
        min 99 ⌊score (dfFromFeatures schema
          (PhishingDetector.extract_features schema (pdNormalize url))) * 100⌋ ∧
      0 ≤ (PhishingDetector.analyze score schema url).confidence ∧
      (PhishingDetector.analyze score schema url).confidence ≤ 99) := by
  constructor
  · intro h
    rw [analyze_official score schema url h]
  · intro h h0 _h1
    rw [analyze_statistical score schema url h]
    have he : pyint (ratMul (score (dfFromFeatures schema
        (PhishingDetector.extract_features schema (pdNormalize url)))) 100) =
        ⌊score (dfFromFeatures schema
          (PhishingDetector.extract_features schema (pdNormalize url))) * 100⌋ := by
      rw [ratMul_eq_mul]
      exact pyint_of_nonneg (by positivity)
    refine ⟨?_, ?_, ?_⟩
    · show min 99 (pyint (ratMul _ 100)) = _
      rw [he]
    · show (0 : ℤ) ≤ min 99 (pyint (ratMul _ 100))
      rw [he]
      have hfl : (0 : ℤ) ≤ ⌊score (dfFromFeatures schema
          (PhishingDetector.extract_features schema (pdNormalize url))) * 100⌋ :=
        Int.floor_nonneg.mpr (by positivity)
      exact le_min (by norm_num) hfl
    · show min 99 (pyint (ratMul _ 100)) ≤ 99
      exact min_le_left _ _

/-- C5 witness: probability exactly 1 on a non-official URL produces
confidence 99, and the official URL produces 100. -/
theorem c5_confidence_witness :
    (PhishingDetector.analyze (fun _ => 1) schema0 "http://paypal.com").confidence = 100 ∧
    (PhishingDetector.analyze (fun _ => 1) schema0 "http://evil.com").confidence =
      min 99 ⌊(1 : ℚ) * 100⌋ ∧
    0 ≤ (PhishingDetector.analyze (fun _ => 1) schema0 "http://evil.com").confidence ∧
    (PhishingDetector.analyze (fun _ => 1) schema0 "http://evil.com").confidence ≤ 99 :=
  ⟨(c5_confidence "http://paypal.com" schema0 (fun _ => 1)).1 (by decide),
   (c5_confidence "http://evil.com" schema0 (fun _ => 1)).2 (by decide)
     (by norm_num) (by norm_num)⟩

/-- The counting rule asserted by the specification for NumSensitiveWords:
the total number of (possibly overlapping, repeated) substring occurrences
of the configured sensitive words in the lower-cased URL. -/
def sensitiveOccurrenceCount (url : String) : ℕ :=
  (sensitive_words.map
    (fun w => ((lower url).data.tails.filter (fun t => w.data.isPrefixOf t)).length)).sum

/-- C6 counterexample: at `http://login-login.com` the code stores 1 (the
word `login` counted once) while the claim's occurrence counting yields 2,
so NumSensitiveWords is not the number of substring occurrences. -/
theorem c6_counterexample :
    List.lookup "NumSensitiveWords"
        (PhishingDetector.extract_features schema0 "http://login-login.com") =
      some (FVal.i 1) ∧
    sensitiveOccurrenceCount "http://login-login.com" = 2 ∧
    List.lookup "NumSensitiveWords"
        (PhishingDetector.extract_features schema0 "http://login-login.com") ≠
      some (FVal.i (sensitiveOccurrenceCount "http://login-login.com")) := by
  refine ⟨by decide, by decide, by decide⟩

/-- C6 amended: NumSensitiveWords is 0 whenever the hostname is official;
otherwise it is the number of distinct configured sensitive words that
occur as case-insensitive substrings of the full URL, each counted once
even if repeated; the example URL yields 3. -/
theorem c6_word_count (url : String) (schema : List String) :
    (PhishingDetector.is_official (lower (urlparse url).netloc) = true →
      List.lookup "NumSensitiveWords" (PhishingDetector.extract_features schema url) =
        some (FVal.i 0)) ∧
    (PhishingDetector.is_official (lower (urlparse url).netloc) = false →
      List.lookup "NumSensitiveWords" (PhishingDetector.extract_features schema url) =
        some (FVal.i (sensitive_words.countP (fun word => pyIn word (lower url))))) ∧
    List.lookup "NumSensitiveWords"
        (PhishingDetector.extract_features schema
          "http://secure-login-verify.example.com") =
      some (FVal.i 3) := by
  refine ⟨?_, ?_, ?_⟩
  · intro h
    rw [extract_py_NumSensitiveWords, h]
    rfl
  · intro h
    rw [extract_py_NumSensitiveWords, h]
    rfl
  · rw [extract_py_NumSensitiveWords,
      show PhishingDetector.is_official
        (lower (urlparse "http://secure-login-verify.example.com").netloc) = false
        from by decide]
    decide

/-- C6 amended witness: the official URL carries 0 and a non-official URL
carries the distinct-word count. -/
theorem c6_word_count_witness :
    List.lookup "NumSensitiveWords"
        (PhishingDetector.extract_features schema0 "http://paypal.com") =
      some (FVal.i 0) ∧
    List.lookup "NumSensitiveWords"
        (PhishingDetector.extract_features schema0 "http://login-login.com") =
      some (FVal.i (sensitive_words.countP
        (fun word => pyIn word (lower "http://login-login.com")))) :=
  ⟨(c6_word_count "http://paypal.com" schema0).1 (by decide),
   (c6_word_count "http://login-login.com" schema0).2.1 (by decide)⟩

/-- C7: brand spoofing is 0 for official hostnames; otherwise it is 1
exactly when some known brand occurs in the lower-cased hostname but not
in the computed registrable domain — so `paypal.evil-host.com` is flagged
while `paypal.com` is not. -/
theorem c7_brand_spoofing :
    (∀ hostname, PhishingDetector.is_official hostname = true →
      PhishingDetector.check_brand_usage hostname = 0) ∧
    (∀ hostname, PhishingDetector.is_official hostname = false →
      (PhishingDetector.check_brand_usage hostname = 1 ↔
        ∃ brand ∈ PhishingDetector.known_brands,
          pyIn brand (lower hostname) = true ∧
          pyIn brand ((tldextract (lower hostname)).domain ++ "." ++
            (tldextract (lower hostname)).suffix) = false)) ∧
    PhishingDetector.check_brand_usage "paypal.evil-host.com" = 1 ∧
    PhishingDetector.check_brand_usage "paypal.com" = 0 := by
  refine ⟨?_, ?_, by decide, by decide⟩
  · intro hostname h
    rw [PhishingDetector.check_brand_usage, if_pos h]
  · intro hostname h
    simp only [PhishingDetector.check_brand_usage]
    rw [if_neg (by rw [h]; exact Bool.false_ne_true)]
    by_cases ha : PhishingDetector.known_brands.any
        (fun brand => pyIn brand (lower hostname) &&
          !(pyIn brand ((tldextract (lower hostname)).domain ++ "." ++
            (tldextract (lower hostname)).suffix))) = true
    · rw [if_pos ha]
      simp only [List.any_eq_true, Bool.and_eq_true, Bool.not_eq_true'] at ha
      simpa using ha
    · rw [if_neg ha]
      simp only [List.any_eq_true, Bool.and_eq_true, Bool.not_eq_true'] at ha
      constructor
      · intro h01
        exact absurd h01 (by norm_num)
      · intro hex
        exact absurd (by simpa using hex) ha

/-- C7 witness: the second clause instantiated at `paypal.evil-host.com`
(non-official) and the first at `paypal.com` (official). -/
theorem c7_brand_spoofing_witness :
    PhishingDetector.check_brand_usage "paypal.com" = 0 ∧
    (PhishingDetector.check_brand_usage "paypal.evil-host.com" = 1 ↔
      ∃ brand ∈ PhishingDetector.known_brands,
        pyIn brand (lower "paypal.evil-host.com") = true ∧
        pyIn brand ((tldextract (lower "paypal.evil-host.com")).domain ++ "." ++
          (tldextract (lower "paypal.evil-host.com")).suffix) = false) :=
  ⟨c7_brand_spoofing.1 "paypal.com" (by decide),
   c7_brand_spoofing.2.1 "paypal.evil-host.com" (by decide)⟩

/-- C8 counterexample: `analyze "http://"` returns normally, but its
features are not all-default — the schema feature UrlLength is 7. -/
theorem c8_counterexample :
    ¬ (∀ n ∈ schema0,
        List.lookup n
          (PhishingDetector.analyze (fun _ => mkRat 1 2) schema0 "http://").features =
          some (FVal.i 0)) := by
  intro hall
  exact absurd (hall "UrlLength" (by decide)) (by decide)

/-- C8 amended: on the empty-hostname input `http://` no exception occurs
(`analyze` is total in the model and takes the normal statistical branch)
and the features are computed from the parse — UrlLength 7,
HostnameLength 0, IsOfficialDomain 0 — rather than being all-default; the
first threat is "No HTTPS". -/
theorem c8_malformed (score : Dict → ℚ) :
    (PhishingDetector.analyze score schema0 "http://").features =
      PhishingDetector.extract_features schema0 "http://" ∧
    List.lookup "UrlLength"
        (PhishingDetector.analyze score schema0 "http://").features = some (FVal.i 7) ∧
    List.lookup "HostnameLength"
        (PhishingDetector.analyze score schema0 "http://").features = some (FVal.i 0) ∧
    List.lookup "IsOfficialDomain"
        (PhishingDetector.analyze score schema0 "http://").features = some (FVal.i 0) ∧
    (PhishingDetector.analyze score schema0 "http://").threats.head? = some "No HTTPS" := by
  have h : PhishingDetector.is_official
      (lower ((urlparse (pdNormalize "http://")).netloc)) = false := by decide
  rw [analyze_statistical score schema0 "http://" h, features_mk, threats_mk]
  refine ⟨rfl, by decide, by decide, by decide, by decide⟩

/-- C9 counterexample: the two pipeline copies disagree at
`http://sub.paypal.com` — `extract_features` reports IsOfficialDomain 1
(registrable-domain rule, larger allowlist) while `extract_all_features`
reports 0 — so the two feature vectors are not equal for every URL. -/
theorem c9_counterexample :
    List.lookup "IsOfficialDomain"
        (PhishingDetector.extract_features schema0 "http://sub.paypal.com") =
      some (FVal.i 1) ∧
    List.lookup "IsOfficialDomain"
        (URLFeatureExtractor.extract_all_features schema0 "http://sub.paypal.com") =
      some (FVal.i 0) ∧
    PhishingDetector.extract_features schema0 "http://sub.paypal.com" ≠
      URLFeatureExtractor.extract_all_features schema0 "http://sub.paypal.com" := by
  refine ⟨by decide, by decide, by decide⟩

/-- C9 amended: the two implementations return feature vectors that agree
at every feature name except possibly IsOfficialDomain, BrandSpoofing and
NumSensitiveWords (their official-domain rules and brand lists differ). -/
theorem c9_agree_except (url : String) (schema : List String) (n : String)
    (h1 : n ≠ "IsOfficialDomain") (h2 : n ≠ "BrandSpoofing")
    (h3 : n ≠ "NumSensitiveWords") :
    List.lookup n (PhishingDetector.extract_features schema url) =
      List.lookup n (URLFeatureExtractor.extract_all_features schema url) :=
  extract_features_agree schema url n h1 h2 h3

/-- C9 amended witness: both copies agree on UrlLength at a concrete URL. -/
theorem c9_agree_except_witness :
    List.lookup "UrlLength"
        (PhishingDetector.extract_features schema0 "http://sub.paypal.com") =
      List.lookup "UrlLength"
        (URLFeatureExtractor.extract_all_features schema0 "http://sub.paypal.com") :=
  c9_agree_except "http://sub.paypal.com" schema0 "UrlLength"
    (by decide) (by decide) (by decide)

/-- C10: a URL without an `http://` or `https://` prefix whose (normalized)
hostname is not official takes the statistical branch with NoHttps 1, so
the threat list is non-empty and its first element is "No HTTPS". -/
theorem c10_no_https_first (url : String) (schema : List String) (score : Dict → ℚ)
    (hs : pyStartsWith url "http://" = false)
    (hs2 : pyStartsWith url "https://" = false)
    (hof : PhishingDetector.is_official
      (lower ((urlparse ("http://" ++ url)).netloc)) = false) :
    List.lookup "NoHttps" (PhishingDetector.extract_features schema (pdNormalize url)) =
      some (FVal.i 1) ∧
    (PhishingDetector.analyze score schema url).threats ≠ [] ∧
    (PhishingDetector.analyze score schema url).threats.head? = some "No HTTPS" ∧
    (PhishingDetector.analyze score schema url).confidence =
      min 99 (pyint (ratMul (score (dfFromFeatures schema
        (PhishingDetector.extract_features schema (pdNormalize url)))) 100)) := by
  have hnorm : pdNormalize url = "http://" ++ url := by
    rw [pdNormalize, if_neg]
    rw [hs, hs2]
    exact Bool.false_ne_true
  have hof' : PhishingDetector.is_official
      (lower ((urlparse (pdNormalize url)).netloc)) = false := by
    rw [hnorm]
    exact hof
  have hhttps : List.lookup "NoHttps"
      (PhishingDetector.extract_features schema (pdNormalize url)) = some (FVal.i 1) := by
    rw [extract_py_NoHttps]
    rw [show (urlparse (pdNormalize url)).scheme = "http" from by
      rw [hnorm]; exact scheme_http_prepend url]
    rfl
  refine ⟨hhttps, ?_, ?_, ?_⟩
  · rw [analyze_statistical score schema url hof', threats_mk]
    simp only [hhttps, Option.getD_some]
    rw [show truthy (FVal.i 1) = true from rfl]
    simp
  · rw [analyze_statistical score schema url hof', threats_mk]
    simp only [hhttps, Option.getD_some]
    rw [show truthy (FVal.i 1) = true from rfl]
    simp
  · rw [analyze_statistical score schema url hof', confidence_mk]

/-- C10 witness: `evil.com` has no scheme prefix and a non-official host;
the resulting threats start with "No HTTPS" and the confidence is the
statistical-branch value. -/
theorem c10_no_https_first_witness :
    List.lookup "NoHttps"
        (PhishingDetector.extract_features schema0 (pdNormalize "evil.com")) =
      some (FVal.i 1) ∧
    (PhishingDetector.analyze (fun _ => mkRat 1 2) schema0 "evil.com").threats ≠ [] ∧
    (PhishingDetector.analyze (fun _ => mkRat 1 2) schema0 "evil.com").threats.head? =
      some "No HTTPS" ∧
    (PhishingDetector.analyze (fun _ => mkRat 1 2) schema0 "evil.com").confidence =
      min 99 (pyint (ratMul ((fun _ : Dict => mkRat 1 2) (dfFromFeatures schema0
        (PhishingDetector.extract_features schema0 (pdNormalize "evil.com")))) 100)) :=
  c10_no_https_first "evil.com" schema0 (fun _ => mkRat 1 2)
    (by decide) (by decide) (by decide)

end PhishDetect
